import Mathlib

/-!
# Genesis boundary, rewards query and deposit store of the kava money market

A shallow embedding of

* `x/hard/genesis.go` (`InitGenesis`, `ExportGenesis`),
* `x/incentive/client/cli/query.go` (`queryRewardsCmd`),
* the deposit accessors exercised by `x/harvest/keeper/keeper_test.go`,

together with the properties the specification states about them.

The keeper accessors, the `types` packages and the cosmos-sdk collaborators are
not part of the sources at hand.  The keeper store is modelled from the
specification as a key-value store iterated in ascending key order; what
`genesis.go` takes from package `types` (the validation function, the module
names, the default totals) is a parameter of the embedding.
-/

namespace Kava

/-! ## Basic data -/

/-- Account addresses are byte strings (`sdk.AccAddress`). -/
abbrev AccAddress := List Nat

/-- Asset denominations, which are also the collateral types. -/
abbrev Denom := String

/-- Logical timestamps (`time.Time`), as a number of seconds. -/
abbrev Time := Int

/-- Fixed-point decimals (`sdk.Dec`): `raw` is the value scaled by `10 ^ 18`. -/
structure Dec where
  raw : Int
deriving DecidableEq, Repr

/-- The decimal `0` (`sdk.ZeroDec()`). -/
def ZeroDec : Dec := ⟨0⟩

/-- The decimal `1` (`sdk.OneDec()`), the identity interest factor. -/
def OneDec : Dec := ⟨1000000000000000000⟩

/-- A coin amount of one denomination (`sdk.Coin`). -/
structure Coin where
  Denom : Denom
  Amount : Int
deriving DecidableEq, Repr

/-- A set of coin amounts keyed by denom (`sdk.Coins`). -/
abbrev Coins := List Coin

/-- The logical context of a call (`sdk.Context`); the store travels separately. -/
structure Context where
  blockTime : Time
deriving DecidableEq, Repr

/-- The current logical time, `ctx.BlockTime()`. -/
def Context.BlockTime (ctx : Context) : Time := ctx.blockTime

/-! ## Key-value store -/

namespace KVStore

/-- Modelled from the spec: the keeper's durable key-value storage, absent from
the sources.  A store is its list of entries; `get` returns the value bound to
a key, if any. -/
def get {K V : Type} [DecidableEq K] : List (K × V) → K → Option V
  | [], _ => none
  | (k', v) :: rest, k => if k' = k then some v else get rest k

/-- Modelled from the spec: writing a key of the keeper's key-value storage,
absent from the sources.  The entry replaces the one bound to the key, or is
inserted at its place in ascending key order. -/
def set {K V : Type} [LinearOrder K] : List (K × V) → K → V → List (K × V)
  | [], k, v => [(k, v)]
  | (k', v') :: rest, k, v =>
    if k < k' then (k, v) :: (k', v') :: rest
    else if k = k' then (k, v) :: rest
    else (k', v') :: set rest k v

/-- Modelled from the spec: removing a key of the keeper's key-value storage,
absent from the sources. -/
def delete {K V : Type} [DecidableEq K] (s : List (K × V)) (k : K) : List (K × V) :=
  s.filter (fun e => !decide (e.1 = k))

/-- Modelled from the spec: the store iterators of the keeper, absent from the
sources.  The callback sees the values in store order and stops the iteration
by returning `true`. -/
def iterate {K V σ : Type} (cb : σ → V → σ × Bool) : List (K × V) → σ → σ
  | [], acc => acc
  | (_, v) :: rest, acc =>
    match cb acc v with
    | (acc', true) => acc'
    | (acc', false) => iterate cb rest acc'

/-- The keys of a store, in store order. -/
def keys {K V : Type} (s : List (K × V)) : List K := s.map Prod.fst

/-- A store holds its keys in strictly ascending order. -/
def WF {K V : Type} [LinearOrder K] (s : List (K × V)) : Prop :=
  (keys s).Pairwise (fun a b => a < b)

instance {K V : Type} [LinearOrder K] (s : List (K × V)) : Decidable (WF s) := by
  unfold WF; infer_instance

end KVStore

/-! ## The hard module: data model -/

namespace Hard

/-- The borrow limits of a money market. -/
structure BorrowLimit where
  CollateralEnabled : Bool
  LoanToValue : Dec
  LiquidationThreshold : Dec
deriving DecidableEq, Repr

/-- The kinked interest-rate curve of a money market. -/
structure InterestRateModel where
  BaseRateAPY : Dec
  BaseMultiplier : Dec
  Kink : Dec
  JumpMultiplier : Dec
deriving DecidableEq, Repr

/-- Modelled from the spec: the `MoneyMarket` type of package `types`, absent
from the sources: the static risk parameters of one collateral type. -/
structure MoneyMarket where
  Denom : Denom
  BorrowLimit : BorrowLimit
  PricePairKey : String
  ConversionFactor : Int
  MaxBorrowLimit : Int
  InterestRateModel : InterestRateModel
  ReserveFactor : Dec
  KeeperRewardPercentage : Dec
deriving DecidableEq, Repr

/-- Modelled from the spec: the `Params` type of package `types`, absent from
the sources: the money-market registry. -/
structure Params where
  MoneyMarkets : List MoneyMarket
deriving DecidableEq, Repr

/-- The export/import projection of the interest factors of one collateral type. -/
structure GenesisAccumulationTime where
  CollateralType : Denom
  PreviousAccumulationTime : Time
  SupplyInterestFactor : Dec
  BorrowInterestFactor : Dec
deriving DecidableEq, Repr

/-- Modelled from the spec: the constructor `types.NewGenesisAccumulationTime`,
absent from the sources: it stores its four arguments. -/
def NewGenesisAccumulationTime (ctype : Denom) (prevTime : Time)
    (supplyFactor borrowFactor : Dec) : GenesisAccumulationTime :=
  { CollateralType := ctype, PreviousAccumulationTime := prevTime,
    SupplyInterestFactor := supplyFactor, BorrowInterestFactor := borrowFactor }

/-- Modelled from the spec: the `Deposit` type of package `types`, absent from
the sources: a deposit record, unique per owner and denom. -/
structure Deposit where
  Depositor : AccAddress
  Denom : Denom
  Amount : Int
  Index : Dec
deriving DecidableEq, Repr

/-- Modelled from the spec: the `Borrow` type of package `types`, absent from
the sources: a borrow record, unique per owner. -/
structure Borrow where
  Borrower : AccAddress
  Amount : Coins
  Index : Dec
deriving DecidableEq, Repr

/-- The state bundle read and written at the genesis boundary. -/
structure GenesisState where
  Params : Params
  PreviousAccumulationTimes : List GenesisAccumulationTime
  Deposits : List Deposit
  Borrows : List Borrow
  TotalSupplied : Coins
  TotalBorrowed : Coins
  TotalReserves : Coins
deriving DecidableEq, Repr

/-- Modelled from the spec: the constructor `NewGenesisState`, absent from the
sources: it stores its seven arguments. -/
def NewGenesisState (params : Params) (prevAccumulationTimes : List GenesisAccumulationTime)
    (deposits : List Deposit) (borrows : List Borrow)
    (totalSupplied totalBorrowed totalReserves : Coins) : GenesisState :=
  { Params := params, PreviousAccumulationTimes := prevAccumulationTimes,
    Deposits := deposits, Borrows := borrows, TotalSupplied := totalSupplied,
    TotalBorrowed := totalBorrowed, TotalReserves := totalReserves }

/-- What `genesis.go` takes from package `types`, which is not among the
sources: the validation of a genesis state (`none` when it passes, the error
otherwise), the module names and the default aggregate totals. -/
structure Types where
  Validate : GenesisState → Option String
  ModuleName : String
  ModuleAccountName : String
  LiquidatorAccount : String
  DefaultTotalSupplied : Coins
  DefaultTotalBorrowed : Coins
  DefaultTotalReserves : Coins

/-- A module account of the account system. -/
structure ModuleAccount where
  Name : String
deriving DecidableEq, Repr

/-- The account-existence collaborator (`types.SupplyKeeper`): `GetModuleAccount`
returns `none` for an account that does not exist. -/
structure SupplyKeeper where
  GetModuleAccount : String → Option ModuleAccount

/-- The key of a deposit record: owner, then denom. -/
abbrev DepositKey := AccAddress ×ₗ Denom

/-- The key under which a deposit is stored. -/
def Deposit.key (d : Deposit) : DepositKey := toLex (d.Depositor, d.Denom)

/-- Modelled from the spec: the state behind the hard `Keeper`, absent from the
sources: parameters, money-market registry, interest factors and accrual times
per collateral type, positions, and the three aggregate totals. -/
@[ext]
structure Store where
  params : Params
  moneyMarkets : List (Denom × MoneyMarket)
  supplyInterestFactors : List (Denom × Dec)
  borrowInterestFactors : List (Denom × Dec)
  previousAccrualTimes : List (Denom × Time)
  deposits : List (DepositKey × Deposit)
  borrows : List (AccAddress × Borrow)
  suppliedCoins : Option Coins
  borrowedCoins : Option Coins
  totalReserves : Option Coins
deriving DecidableEq

/-- The store before anything is written. -/
def Store.empty : Store :=
  { params := { MoneyMarkets := [] }, moneyMarkets := [], supplyInterestFactors := [],
    borrowInterestFactors := [], previousAccrualTimes := [], deposits := [],
    borrows := [], suppliedCoins := none, borrowedCoins := none, totalReserves := none }

/-! ## The hard module: keeper accessors

Modelled from the spec throughout: the accessors of the hard `Keeper` are not
among the sources.  Each setter writes one key, each getter reads one key and
reports whether it was found.
-/

/-- Modelled from the spec: `Keeper.GetParams`, absent from the sources. -/
def GetParams (k : Store) : Params := k.params

/-- Modelled from the spec: `Keeper.SetParams`, absent from the sources. -/
def SetParams (k : Store) (params : Params) : Store := { k with params := params }

/-- Modelled from the spec: `Keeper.GetMoneyMarket`, absent from the sources. -/
def GetMoneyMarket (k : Store) (denom : Denom) : Option MoneyMarket :=
  KVStore.get k.moneyMarkets denom

/-- Modelled from the spec: `Keeper.SetMoneyMarket`, absent from the sources. -/
def SetMoneyMarket (k : Store) (denom : Denom) (mm : MoneyMarket) : Store :=
  { k with moneyMarkets := KVStore.set k.moneyMarkets denom mm }

/-- Modelled from the spec: `Keeper.GetPreviousAccrualTime`, absent from the sources. -/
def GetPreviousAccrualTime (k : Store) (denom : Denom) : Option Time :=
  KVStore.get k.previousAccrualTimes denom

/-- Modelled from the spec: `Keeper.SetPreviousAccrualTime`, absent from the sources. -/
def SetPreviousAccrualTime (k : Store) (denom : Denom) (t : Time) : Store :=
  { k with previousAccrualTimes := KVStore.set k.previousAccrualTimes denom t }

/-- Modelled from the spec: `Keeper.GetSupplyInterestFactor`, absent from the sources. -/
def GetSupplyInterestFactor (k : Store) (denom : Denom) : Option Dec :=
  KVStore.get k.supplyInterestFactors denom

/-- Modelled from the spec: `Keeper.SetSupplyInterestFactor`, absent from the sources. -/
def SetSupplyInterestFactor (k : Store) (denom : Denom) (f : Dec) : Store :=
  { k with supplyInterestFactors := KVStore.set k.supplyInterestFactors denom f }

/-- Modelled from the spec: `Keeper.GetBorrowInterestFactor`, absent from the sources. -/
def GetBorrowInterestFactor (k : Store) (denom : Denom) : Option Dec :=
  KVStore.get k.borrowInterestFactors denom

/-- Modelled from the spec: `Keeper.SetBorrowInterestFactor`, absent from the sources. -/
def SetBorrowInterestFactor (k : Store) (denom : Denom) (f : Dec) : Store :=
  { k with borrowInterestFactors := KVStore.set k.borrowInterestFactors denom f }

/-- Modelled from the spec: `Keeper.SetDeposit`, absent from the sources. -/
def SetDeposit (k : Store) (deposit : Deposit) : Store :=
  { k with deposits := KVStore.set k.deposits deposit.key deposit }

/-- Modelled from the spec: `Keeper.SetBorrow`, absent from the sources. -/
def SetBorrow (k : Store) (borrow : Borrow) : Store :=
  { k with borrows := KVStore.set k.borrows borrow.Borrower borrow }

/-- Modelled from the spec: `Keeper.IterateDeposits`, absent from the sources. -/
def IterateDeposits {σ : Type} (k : Store) (cb : σ → Deposit → σ × Bool) (init : σ) : σ :=
  KVStore.iterate cb k.deposits init

/-- Modelled from the spec: `Keeper.IterateBorrows`, absent from the sources. -/
def IterateBorrows {σ : Type} (k : Store) (cb : σ → Borrow → σ × Bool) (init : σ) : σ :=
  KVStore.iterate cb k.borrows init

/-- Modelled from the spec: `Keeper.GetSuppliedCoins`, absent from the sources. -/
def GetSuppliedCoins (k : Store) : Option Coins := k.suppliedCoins

/-- Modelled from the spec: `Keeper.SetSuppliedCoins`, absent from the sources. -/
def SetSuppliedCoins (k : Store) (coins : Coins) : Store := { k with suppliedCoins := some coins }

/-- Modelled from the spec: `Keeper.GetBorrowedCoins`, absent from the sources. -/
def GetBorrowedCoins (k : Store) : Option Coins := k.borrowedCoins

/-- Modelled from the spec: `Keeper.SetBorrowedCoins`, absent from the sources. -/
def SetBorrowedCoins (k : Store) (coins : Coins) : Store := { k with borrowedCoins := some coins }

/-- Modelled from the spec: `Keeper.GetTotalReserves`, absent from the sources. -/
def GetTotalReserves (k : Store) : Option Coins := k.totalReserves

/-- Modelled from the spec: `Keeper.SetTotalReserves`, absent from the sources. -/
def SetTotalReserves (k : Store) (coins : Coins) : Store := { k with totalReserves := some coins }

/-! ## The hard module: `genesis.go` -/

/-- The outcome of `InitGenesis`: the store as the call leaves it, and the
message of the panic that ended it, if any. -/
structure InitResult where
  store : Store
  panicked : Option String
deriving DecidableEq

/-- One turn of the loop over `gs.PreviousAccumulationTimes` of `InitGenesis`. -/
def setAccumulationTime (k : Store) (gat : GenesisAccumulationTime) : Store :=
  let k := SetPreviousAccrualTime k gat.CollateralType gat.PreviousAccumulationTime
  let k := SetSupplyInterestFactor k gat.CollateralType gat.SupplyInterestFactor
  SetBorrowInterestFactor k gat.CollateralType gat.BorrowInterestFactor

/-- The writes of `InitGenesis`, from `SetParams` to `SetTotalReserves`. -/
def writeGenesis (k : Store) (gs : GenesisState) : Store :=
  let k := SetParams k gs.Params
  let k := gs.Params.MoneyMarkets.foldl (fun k mm => SetMoneyMarket k mm.Denom mm) k
  let k := gs.PreviousAccumulationTimes.foldl setAccumulationTime k
  let k := gs.Deposits.foldl SetDeposit k
  let k := gs.Borrows.foldl SetBorrow k
  let k := SetSuppliedCoins k gs.TotalSupplied
  let k := SetBorrowedCoins k gs.TotalBorrowed
  SetTotalReserves k gs.TotalReserves

/-- `InitGenesis` initializes the store state from a genesis state.  A panic
leaves the store as the writes before it made it. -/
def InitGenesis (T : Types) (_ctx : Context) (k : Store) (supplyKeeper : SupplyKeeper)
    (gs : GenesisState) : InitResult :=
  match T.Validate gs with
  | some err =>
    { store := k,
      panicked := some ("failed to validate " ++ T.ModuleName ++ " genesis state: " ++ err) }
  | none =>
    let k := writeGenesis k gs
    -- check if the module account exists
    match supplyKeeper.GetModuleAccount T.ModuleAccountName with
    | none =>
      -- the message formats the nil account, not its name
      { store := k, panicked := some "%!s(<nil>) module account has not been set" }
    | some _ =>
      -- check if the module account exists
      match supplyKeeper.GetModuleAccount T.LiquidatorAccount with
      | none =>
        { store := k,
          panicked := some (T.LiquidatorAccount ++ " module account has not been set") }
      | some _ => { store := k, panicked := none }

/-- The body of the loop over `params.MoneyMarkets` of `ExportGenesis`: the
record appended for one money market. -/
def exportAccumulationTime (ctx : Context) (k : Store) (mm : MoneyMarket) :
    GenesisAccumulationTime :=
  let supplyFactor :=
    match GetSupplyInterestFactor k mm.Denom with
    | some f => f
    | none => ZeroDec
  let borrowFactor :=
    match GetBorrowInterestFactor k mm.Denom with
    | some f => f
    | none => ZeroDec
  let previousAccrualTime :=
    match GetPreviousAccrualTime k mm.Denom with
    | some t => t
    | none => ctx.BlockTime
  NewGenesisAccumulationTime mm.Denom previousAccrualTime supplyFactor borrowFactor

/-- `ExportGenesis` exports the genesis state of the hard module. -/
def ExportGenesis (T : Types) (ctx : Context) (k : Store) : GenesisState :=
  let params := GetParams k
  let deposits := IterateDeposits k (fun deposits d => (deposits ++ [d], false)) []
  let borrows := IterateBorrows k (fun borrows b => (borrows ++ [b], false)) []
  let totalSupplied :=
    match GetSuppliedCoins k with
    | some coins => coins
    | none => T.DefaultTotalSupplied
  let totalBorrowed :=
    match GetBorrowedCoins k with
    | some coins => coins
    | none => T.DefaultTotalBorrowed
  let totalReserves :=
    match GetTotalReserves k with
    | some coins => coins
    | none => T.DefaultTotalReserves
  let gats := params.MoneyMarkets.foldl
    (fun gats mm => gats ++ [exportAccumulationTime ctx k mm]) []
  NewGenesisState params gats deposits borrows totalSupplied totalBorrowed totalReserves

end Hard

/-! ## The incentive module: `client/cli/query.go` -/

namespace Incentive

/-- The name of the owner flag. -/
def flagOwner : String := "owner"

/-- The name of the reward type flag. -/
def flagType : String := "type"

/-- The name of the page flag (`flags.FlagPage` of the cosmos-sdk). -/
def FlagPage : String := "page"

/-- The name of the limit flag (`flags.FlagLimit` of the cosmos-sdk). -/
def FlagLimit : String := "limit"

/-- The flag values of one invocation, as `viper` serves them. -/
structure Viper where
  GetString : String → String
  GetInt : String → Int

/-- Modelled from the spec: the `QueryRewardsParams` type of package `types`,
absent from the sources: page, limit, owner filter and reward type filter. -/
structure QueryRewardsParams where
  Page : Int
  Limit : Int
  Owner : AccAddress
  RewardType : String
deriving DecidableEq, Repr

/-- Modelled from the spec: the constructor `types.NewQueryRewardsParams`,
absent from the sources: it stores its four arguments. -/
def NewQueryRewardsParams (page limit : Int) (owner : AccAddress) (rewardType : String) :
    QueryRewardsParams :=
  { Page := page, Limit := limit, Owner := owner, RewardType := rewardType }

/-- A reward claim as the querier returns it. -/
structure Claim where
  Owner : AccAddress
  CollateralType : String
  Reward : Coin
deriving DecidableEq, Repr

/-- The claims of both reward types (`ClaimData` of `queryRewardsCmd`). -/
structure ClaimData where
  USDXMintingClaims : List Claim
  HardLiquidityProviderClaims : List Claim
deriving DecidableEq, Repr

/-- The collaborators of the command, none of which is among the sources: the
bech32 address parsing of the cosmos-sdk, the codec, the node queried through
the CLI context, and the route constant `types.QueryGetRewards`. -/
structure Client where
  AccAddressFromBech32 : String → Except String AccAddress
  MarshalJSON : QueryRewardsParams → Except String (List Nat)
  QueryWithData : String → List Nat → Except String (List Nat × Int)
  UnmarshalJSON : List Nat → Except String ClaimData
  PrintOutput : Int → ClaimData → Option String
  QueryGetRewards : String

/-- The calls the command makes on its collaborators after parsing the owner. -/
inductive Call where
  | marshalJSON (params : QueryRewardsParams)
  | queryWithData (route : String) (bz : List Nat)
  | unmarshalJSON (res : List Nat)
  | printOutput (height : Int) (claims : ClaimData)
deriving DecidableEq, Repr

/-- The outcome of running the command: the calls made, in order, and the error
returned, if any. -/
structure RunResult where
  calls : List Call
  err : Option String
deriving DecidableEq, Repr

/-- The block `Prepare params for querier` of `queryRewardsCmd`, with the flag
reads before it: the query parameters, or the address-parsing error. -/
def prepareParams (c : Client) (viper : Viper) : Except String QueryRewardsParams :=
  let strOwner := viper.GetString flagOwner
  let strType := viper.GetString flagOwner
  let page := viper.GetInt FlagPage
  let limit := viper.GetInt FlagLimit
  match c.AccAddressFromBech32 strOwner with
  | .error err => .error err
  | .ok owner => .ok (NewQueryRewardsParams page limit owner strType)

/-- The `RunE` function of `queryRewardsCmd`. -/
def queryRewardsCmd (queryRoute : String) (c : Client) (viper : Viper) : RunResult :=
  match prepareParams c viper with
  | .error err => { calls := [], err := some err }
  | .ok params =>
    match c.MarshalJSON params with
    | .error err => { calls := [.marshalJSON params], err := some err }
    | .ok bz =>
      -- Query
      let route := "custom/" ++ queryRoute ++ "/" ++ c.QueryGetRewards
      match c.QueryWithData route bz with
      | .error err =>
        { calls := [.marshalJSON params, .queryWithData route bz], err := some err }
      | .ok (res, height) =>
        match c.UnmarshalJSON res with
        | .error err =>
          { calls := [.marshalJSON params, .queryWithData route bz, .unmarshalJSON res],
            err := some ("failed to unmarshal claims: " ++ err) }
        | .ok claims =>
          { calls := [.marshalJSON params, .queryWithData route bz, .unmarshalJSON res,
              .printOutput height claims],
            err := c.PrintOutput height claims }

end Incentive

/-! ## The harvest module: deposit store -/

namespace Harvest

/-- Modelled from the spec: the `Deposit` type of the harvest module, absent
from the sources: the owner and the coin deposited. -/
structure Deposit where
  Depositor : AccAddress
  Amount : Coin
deriving DecidableEq, Repr

/-- Modelled from the spec: the constructor `types.NewDeposit`, absent from the
sources: it stores its two arguments. -/
def NewDeposit (depositor : AccAddress) (amount : Coin) : Deposit :=
  { Depositor := depositor, Amount := amount }

/-- The key of a deposit record: owner, then denom. -/
abbrev DepositKey := AccAddress ×ₗ Denom

/-- Modelled from the spec: the state behind the harvest `Keeper`, absent from
the sources, as far as deposits go: one record per owner and denom. -/
structure Store where
  deposits : List (DepositKey × Deposit)
deriving DecidableEq

/-- Modelled from the spec: `Keeper.GetDeposit`, absent from the sources: the
deposit of an owner in a denom, `none` when not found. -/
def GetDeposit (k : Store) (depositor : AccAddress) (denom : Denom) : Option Deposit :=
  KVStore.get k.deposits (toLex (depositor, denom))

/-- Modelled from the spec: `Keeper.SetDeposit`, absent from the sources: it
writes the record under its owner and the denom of its coin. -/
def SetDeposit (k : Store) (deposit : Deposit) : Store :=
  { k with deposits :=
      KVStore.set k.deposits (toLex (deposit.Depositor, deposit.Amount.Denom)) deposit }

/-- Modelled from the spec: `Keeper.DeleteDeposit`, absent from the sources: it
removes the record under the owner and the denom of the coin. -/
def DeleteDeposit (k : Store) (deposit : Deposit) : Store :=
  { k with deposits :=
      KVStore.delete k.deposits (toLex (deposit.Depositor, deposit.Amount.Denom)) }

end Harvest

/-! ## States at the genesis boundary -/

namespace Hard

/-- The collateral types of the registry, in the order of the parameters. -/
def Params.denoms (params : Params) : List Denom := params.MoneyMarkets.map (fun mm => mm.Denom)

/-- The money-market store that `InitGenesis` writes for given parameters. -/
def Params.registry (params : Params) : List (Denom × MoneyMarket) :=
  params.MoneyMarkets.foldl (fun s mm => KVStore.set s mm.Denom mm) []

/-- The representation invariant of the store: every table holds its keys in
ascending order, and positions are filed under their own key. -/
def Store.WellFormed (s : Store) : Prop :=
  KVStore.WF s.supplyInterestFactors ∧ KVStore.WF s.borrowInterestFactors ∧
  KVStore.WF s.previousAccrualTimes ∧ KVStore.WF s.deposits ∧ KVStore.WF s.borrows ∧
  (∀ e ∈ s.deposits, e.1 = e.2.key) ∧ (∀ e ∈ s.borrows, e.1 = e.2.Borrower)

/-- The table binds exactly the collateral types of the parameters. -/
def coversRegistry {V : Type} (params : Params) (table : List (Denom × V)) : Prop :=
  (∀ d ∈ params.denoms, (KVStore.get table d).isSome = true) ∧
  (∀ d ∈ KVStore.keys table, d ∈ params.denoms)

/-- A store whose lazily initialized entries are all present: the money-market
store is the registry of the parameters, factors and accrual time are stored
for exactly the collateral types of the registry, and the three aggregate
totals are stored. -/
def Store.Materialized (s : Store) : Prop :=
  s.moneyMarkets = s.params.registry ∧
  coversRegistry s.params s.supplyInterestFactors ∧
  coversRegistry s.params s.borrowInterestFactors ∧
  coversRegistry s.params s.previousAccrualTimes ∧
  s.suppliedCoins.isSome = true ∧ s.borrowedCoins.isSome = true ∧
  s.totalReserves.isSome = true

instance (s : Store) : Decidable s.WellFormed := by
  unfold Store.WellFormed; infer_instance

instance {V : Type} (params : Params) (table : List (Denom × V)) :
    Decidable (coversRegistry params table) := by
  unfold coversRegistry; infer_instance

instance (s : Store) : Decidable s.Materialized := by
  unfold Store.Materialized; infer_instance

/-- A validation that demands what the data model demands of interest factors:
both are at least 1. -/
def validateFactors (gs : GenesisState) : Option String :=
  if gs.PreviousAccumulationTimes.all
      (fun gat => decide (OneDec.raw ≤ gat.SupplyInterestFactor.raw) &&
        decide (OneDec.raw ≤ gat.BorrowInterestFactor.raw))
  then none
  else some "interest factor should be at least 1.0"

/-- An instance of what package `types` provides. -/
def exampleTypes : Types :=
  { Validate := validateFactors, ModuleName := "hard",
    ModuleAccountName := "deposit-custody", LiquidatorAccount := "liquidator",
    DefaultTotalSupplied := [], DefaultTotalBorrowed := [], DefaultTotalReserves := [] }

/-- An account system in which both protocol-owned accounts exist. -/
def bothAccounts : SupplyKeeper :=
  { GetModuleAccount := fun name =>
      if name = "deposit-custody" ∨ name = "liquidator" then some { Name := name } else none }

/-- The money market of the keeper tests, for denom `bnb`. -/
def bnbMarket : MoneyMarket :=
  { Denom := "bnb",
    BorrowLimit := { CollateralEnabled := false, LoanToValue := ⟨200000000000000000⟩,
                     LiquidationThreshold := ⟨500000000000000000⟩ },
    PricePairKey := "bnb:usd", ConversionFactor := 1000000, MaxBorrowLimit := 1000000000,
    InterestRateModel := { BaseRateAPY := ⟨50000000000000000⟩,
                           BaseMultiplier := ⟨2000000000000000000⟩,
                           Kink := ⟨800000000000000000⟩,
                           JumpMultiplier := ⟨10000000000000000000⟩ },
    ReserveFactor := ⟨50000000000000000⟩, KeeperRewardPercentage := ZeroDec }

/-- A store with the `bnb` money market registered and never accrued. -/
def neverAccrued : Store :=
  { Store.empty with
    params := { MoneyMarkets := [bnbMarket] }, moneyMarkets := [("bnb", bnbMarket)] }

/-- A store with the `bnb` money market, both factors at 1, the three totals
stored, and no previous accrual time. -/
def noAccrualTime : Store :=
  { neverAccrued with
    supplyInterestFactors := [("bnb", OneDec)], borrowInterestFactors := [("bnb", OneDec)],
    suppliedCoins := some [⟨"bnb", 100⟩], borrowedCoins := some [],
    totalReserves := some [] }

/-- A deposit of 100 `bnb`. -/
def bnbDeposit : Deposit := { Depositor := [1, 2, 3], Denom := "bnb", Amount := 100, Index := OneDec }

/-- A borrow of 40 `bnb`. -/
def bnbBorrow : Borrow := { Borrower := [4, 5, 6], Amount := [⟨"bnb", 40⟩], Index := OneDec }

/-- A store with the `bnb` money market accrued at time 90, one deposit, one
borrow and the three totals stored. -/
def accrued : Store :=
  { noAccrualTime with
    previousAccrualTimes := [("bnb", 90)],
    deposits := [(bnbDeposit.key, bnbDeposit)], borrows := [(bnbBorrow.Borrower, bnbBorrow)],
    borrowedCoins := some [⟨"bnb", 40⟩] }

/-- A genesis state whose supply interest factor is below 1. -/
def badGenesis : GenesisState :=
  NewGenesisState { MoneyMarkets := [bnbMarket] } [⟨"bnb", 90, ZeroDec, OneDec⟩] [bnbDeposit] []
    [⟨"bnb", 100⟩] [] []

/-- A genesis state for the `bnb` money market with one deposit. -/
def goodGenesis : GenesisState :=
  NewGenesisState { MoneyMarkets := [bnbMarket] } [⟨"bnb", 90, OneDec, OneDec⟩] [bnbDeposit] []
    [⟨"bnb", 100⟩] [] [⟨"bnb", 7⟩]

end Hard

/-! ## Invocations of the rewards query -/

namespace Incentive

/-- The sample owner of the help text of the command. -/
def sampleOwner : String := "kava15qdefkmwswysgg4qxgqpqr35k3m49pkx2jdfnw"

/-- The 20 bytes that `sampleOwner` encodes. -/
def sampleOwnerAddress : AccAddress :=
  [160, 27, 148, 219, 110, 131, 137, 4, 34, 160, 50, 0, 16, 14, 52, 180, 119, 82, 134, 198]

/-- A client against a node without claims.  Its address parsing follows
`sdk.AccAddressFromBech32` on the inputs used here: the empty string is the
empty address, the sample owner decodes to its bytes, anything else is an
error. -/
def exampleClient : Client :=
  { AccAddressFromBech32 := fun str =>
      if str = "" then .ok []
      else if str = sampleOwner then .ok sampleOwnerAddress
      else .error "decoding bech32 failed",
    MarshalJSON := fun _ => .ok [],
    QueryWithData := fun _ _ => .ok ([], 1),
    UnmarshalJSON := fun _ => .ok { USDXMintingClaims := [], HardLiquidityProviderClaims := [] },
    PrintOutput := fun _ _ => none,
    QueryGetRewards := "rewards" }

/-- The flag values of an invocation with the given owner and reward type and
the default page and limit. -/
def flagValues (owner rewardType : String) : Viper :=
  { GetString := fun name =>
      if name = "owner" then owner else if name = "type" then rewardType else "",
    GetInt := fun name => if name = "page" then 1 else if name = "limit" then 100 else 0 }

end Incentive

/-! ## Deposits of the keeper tests -/

namespace Harvest

/-- The deposit of `TestGetSetDeleteDeposit`: 100 `bnb` of the address `test`. -/
def testDeposit : Deposit := NewDeposit [116, 101, 115, 116] { Denom := "bnb", Amount := 100 }

/-- The harvest store before any deposit is written. -/
def Store.empty : Store := { deposits := [] }

end Harvest

/-! ## Lemmas on the key-value store -/

namespace KVStore

variable {K V : Type}

theorem get_set [LinearOrder K] [DecidableEq K] (s : List (K × V)) (k : K) (v : V) (q : K) :
    get (set s k v) q = if k = q then some v else get s q := by
  induction s with
  | nil => simp [set, get]
  | cons e rest ih =>
    obtain ⟨k', v'⟩ := e
    by_cases hq : k = q
    · subst hq
      by_cases h1 : k < k'
      · simp [set, get, h1]
      · by_cases h2 : k = k'
        · simp [set, get, h2]
        · have h3 : ¬ k' = k := fun h => h2 h.symm
          simp [set, get, h1, h2, h3, ih]
    · by_cases h1 : k < k'
      · simp [set, get, h1, hq]
      · by_cases h2 : k = k'
        · subst h2
          simp [set, get, hq]
        · simp [set, get, h1, h2, hq, ih]

theorem get_set_self [LinearOrder K] [DecidableEq K] (s : List (K × V)) (k : K) (v : V) :
    get (set s k v) k = some v := by
  simp [get_set]

theorem get_delete_self [DecidableEq K] (s : List (K × V)) (k : K) :
    get (delete s k) k = none := by
  induction s with
  | nil => simp [delete, get]
  | cons e rest ih =>
    obtain ⟨k', v'⟩ := e
    unfold delete at ih
    by_cases h : k' = k
    · simpa [delete, h] using ih
    · simp [delete, h, get, ih]

theorem get_eq_none_of_not_mem [DecidableEq K] (s : List (K × V)) (k : K)
    (h : k ∉ keys s) : get s k = none := by
  induction s with
  | nil => simp [get]
  | cons e rest ih =>
    obtain ⟨k', v'⟩ := e
    simp only [keys, List.map_cons, List.mem_cons, not_or] at h
    have h1 : ¬ k' = k := fun h' => h.1 h'.symm
    simp only [get, h1, if_false]
    exact ih h.2

theorem iterate_collect (s : List (K × V)) (acc : List V) :
    iterate (fun (l : List V) v => (l ++ [v], false)) s acc = acc ++ s.map Prod.snd := by
  induction s generalizing acc with
  | nil => simp [iterate]
  | cons e rest ih =>
    obtain ⟨k', v'⟩ := e
    simp [iterate, ih]

theorem mem_keys_of_get_eq_some [DecidableEq K] (s : List (K × V)) (k : K) (v : V)
    (h : get s k = some v) : k ∈ keys s := by
  by_contra hk
  rw [get_eq_none_of_not_mem s k hk] at h
  exact Option.noConfusion h

theorem mem_keys_set [LinearOrder K] (s : List (K × V)) (k : K) (v : V) (q : K) :
    q ∈ keys (set s k v) ↔ q = k ∨ q ∈ keys s := by
  induction s with
  | nil => simp [set, keys]
  | cons e rest ih =>
    obtain ⟨k', v'⟩ := e
    simp only [keys] at ih
    by_cases h1 : k < k'
    · simp [set, keys, h1]
    · by_cases h2 : k = k'
      · subst h2
        simp [set, keys]
      · simp only [set, h1, h2, if_false, keys, List.map_cons, List.mem_cons, ih]
        tauto

theorem WF_nil [LinearOrder K] : WF ([] : List (K × V)) := by
  simp [WF, keys]

theorem WF_cons [LinearOrder K] (e : K × V) (s : List (K × V)) :
    WF (e :: s) ↔ (∀ q ∈ keys s, e.1 < q) ∧ WF s := by
  simp [WF, keys, List.pairwise_cons]

theorem WF_set [LinearOrder K] (s : List (K × V)) (k : K) (v : V) (h : WF s) :
    WF (set s k v) := by
  induction s with
  | nil => simp [set, WF, keys]
  | cons e rest ih =>
    obtain ⟨k', v'⟩ := e
    rw [WF_cons] at h
    obtain ⟨hlt, hrest⟩ := h
    by_cases h1 : k < k'
    · simp only [set, h1, if_true]
      rw [WF_cons, WF_cons]
      refine ⟨?_, hlt, hrest⟩
      intro q hq
      simp only [keys, List.map_cons, List.mem_cons] at hq
      rcases hq with hq | hq
      · rw [hq]; exact h1
      · exact lt_trans h1 (hlt q hq)
    · by_cases h2 : k = k'
      · subst h2
        simp only [set, h1, if_false, if_true]
        rw [WF_cons]
        exact ⟨hlt, hrest⟩
      · simp only [set, h1, h2, if_false]
        rw [WF_cons]
        refine ⟨?_, ih hrest⟩
        intro q hq
        rcases (mem_keys_set rest k v q).mp hq with hq | hq
        · rw [hq]
          exact lt_of_le_of_ne (not_lt.mp h1) (fun h => h2 h.symm)
        · exact hlt q hq

theorem WF_foldl_set [LinearOrder K] {α : Type} (f : α → K) (g : α → V) (l : List α)
    (s : List (K × V)) (h : WF s) :
    WF (l.foldl (fun s a => set s (f a) (g a)) s) := by
  induction l generalizing s with
  | nil => exact h
  | cons a rest ih => exact ih _ (WF_set s (f a) (g a) h)

/-- Two stores in ascending key order that answer every `get` alike are equal. -/
theorem ext_of_WF [LinearOrder K] [DecidableEq K] (s t : List (K × V)) (hs : WF s) (ht : WF t)
    (h : ∀ q, get s q = get t q) : s = t := by
  induction s generalizing t with
  | nil =>
    cases t with
    | nil => rfl
    | cons e rest =>
      have := h e.1
      simp [get] at this
  | cons e rest ih =>
    obtain ⟨k1, v1⟩ := e
    cases t with
    | nil =>
      have := h k1
      simp [get] at this
    | cons e2 rest2 =>
      obtain ⟨k2, v2⟩ := e2
      rw [WF_cons] at hs ht
      obtain ⟨hs1, hs2⟩ := hs
      obtain ⟨ht1, ht2⟩ := ht
      have hk : k1 = k2 := by
        by_contra hne
        have a1 := h k1
        have a2 := h k2
        have hne' : ¬ k2 = k1 := fun h => hne h.symm
        simp only [get, if_true, hne, hne', if_false] at a1 a2
        have b1 : k2 < k1 := ht1 k1 (mem_keys_of_get_eq_some rest2 k1 v1 a1.symm)
        have b2 : k1 < k2 := hs1 k2 (mem_keys_of_get_eq_some rest k2 v2 a2)
        exact lt_asymm b1 b2
      subst hk
      have hv : v1 = v2 := by
        have a1 := h k1
        simpa [get] using a1
      subst hv
      have hrest : rest = rest2 := by
        apply ih rest2 hs2 ht2
        intro q
        by_cases hq : k1 = q
        · subst hq
          rw [get_eq_none_of_not_mem rest k1 (fun hm => lt_irrefl _ (hs1 k1 hm)),
            get_eq_none_of_not_mem rest2 k1 (fun hm => lt_irrefl _ (ht1 k1 hm))]
        · have a := h q
          simpa [get, hq] using a
      rw [hrest]

/-- Writing, from the empty store, values that depend on their key only: the
store then binds exactly the keys written. -/
theorem get_foldl_set [LinearOrder K] [DecidableEq K] {α : Type} (f : α → K) (g : α → V) (d : K → V)
    (l : List α) (hg : ∀ a ∈ l, g a = d (f a)) (s : List (K × V)) (q : K) :
    get (l.foldl (fun s a => set s (f a) (g a)) s) q =
      if q ∈ l.map f then some (d q) else get s q := by
  induction l generalizing s with
  | nil => simp
  | cons a rest ih =>
    have hg' : ∀ b ∈ rest, g b = d (f b) := fun b hb => hg b (List.mem_cons_of_mem _ hb)
    simp only [List.foldl, List.map_cons, List.mem_cons]
    rw [ih hg', get_set]
    by_cases h1 : q ∈ rest.map f
    · simp [h1]
    · by_cases h2 : f a = q
      · subst h2
        simp [h1, hg a (List.mem_cons_self _ _)]
      · have h3 : ¬ q = f a := fun h => h2 h.symm
        simp [h1, h2, h3]

theorem set_eq_append [LinearOrder K] (s : List (K × V)) (k : K) (v : V)
    (h : ∀ q ∈ keys s, q < k) : set s k v = s ++ [(k, v)] := by
  induction s with
  | nil => simp [set]
  | cons e rest ih =>
    obtain ⟨k', v'⟩ := e
    have hk : k' < k := h k' (by simp [keys])
    have h1 : ¬ k < k' := not_lt.mpr (le_of_lt hk)
    have h2 : ¬ k = k' := fun h => (ne_of_lt hk) h.symm
    have hrest : ∀ q ∈ keys rest, q < k := fun q hq => h q (by simp [keys] at hq ⊢; right; exact hq)
    simp [set, h1, h2, ih hrest]

/-- Writing the entries of a store in ascending key order rebuilds it entry by entry. -/
theorem foldl_set_of_WF [LinearOrder K] (l acc : List (K × V)) (h : WF (acc ++ l)) :
    l.foldl (fun s e => set s e.1 e.2) acc = acc ++ l := by
  induction l generalizing acc with
  | nil => simp
  | cons e rest ih =>
    simp only [List.foldl]
    have hlt : ∀ q ∈ keys acc, q < e.1 := by
      intro q hq
      simp only [WF, keys, List.map_append, List.map_cons, List.pairwise_append] at h
      simp only [keys] at hq
      exact h.2.2 q hq e.1 (by simp)
    rw [set_eq_append acc e.1 e.2 hlt]
    have h' : WF ((acc ++ [(e.1, e.2)]) ++ rest) := by
      simpa using h
    rw [ih _ h']
    simp

end KVStore

/-! ## Lemmas on folds -/

theorem foldl_proj {σ α β : Type} (f : σ → α → σ) (p : σ → β)
    (h : ∀ s a, p (f s a) = p s) (l : List α) (s : σ) :
    p (l.foldl f s) = p s := by
  induction l generalizing s with
  | nil => rfl
  | cons a rest ih => simp [List.foldl, ih, h]

theorem foldl_proj_fold {σ α β : Type} (f : σ → α → σ) (p : σ → β) (g : β → α → β)
    (h : ∀ s a, p (f s a) = g (p s) a) (l : List α) (s : σ) :
    p (l.foldl f s) = l.foldl g (p s) := by
  induction l generalizing s with
  | nil => rfl
  | cons a rest ih => simp [List.foldl, ih, h]

theorem foldl_append_singleton {α β : Type} (f : α → β) (l : List α) (acc : List β) :
    l.foldl (fun out a => out ++ [f a]) acc = acc ++ l.map f := by
  induction l generalizing acc with
  | nil => simp
  | cons a rest ih => simp [List.foldl, ih]

/-! ## The genesis boundary: what `InitGenesis` writes -/

namespace Hard

theorem writeGenesis_params (k : Store) (gs : GenesisState) :
    (writeGenesis k gs).params = gs.Params := by
  simp only [writeGenesis, SetTotalReserves, SetBorrowedCoins, SetSuppliedCoins]
  rw [foldl_proj SetBorrow Store.params (fun _ _ => rfl),
    foldl_proj SetDeposit Store.params (fun _ _ => rfl),
    foldl_proj setAccumulationTime Store.params (fun _ _ => rfl),
    foldl_proj (fun k (mm : MoneyMarket) => SetMoneyMarket k mm.Denom mm) Store.params
      (fun _ _ => rfl)]
  rfl

theorem writeGenesis_moneyMarkets (k : Store) (gs : GenesisState) :
    (writeGenesis k gs).moneyMarkets =
      gs.Params.MoneyMarkets.foldl (fun s mm => KVStore.set s mm.Denom mm) k.moneyMarkets := by
  simp only [writeGenesis, SetTotalReserves, SetBorrowedCoins, SetSuppliedCoins]
  rw [foldl_proj SetBorrow Store.moneyMarkets (fun _ _ => rfl),
    foldl_proj SetDeposit Store.moneyMarkets (fun _ _ => rfl),
    foldl_proj setAccumulationTime Store.moneyMarkets (fun _ _ => rfl),
    foldl_proj_fold (fun k (mm : MoneyMarket) => SetMoneyMarket k mm.Denom mm)
      Store.moneyMarkets (fun s mm => KVStore.set s mm.Denom mm) (fun _ _ => rfl)]
  rfl

theorem writeGenesis_supplyInterestFactors (k : Store) (gs : GenesisState) :
    (writeGenesis k gs).supplyInterestFactors =
      gs.PreviousAccumulationTimes.foldl
        (fun s gat => KVStore.set s gat.CollateralType gat.SupplyInterestFactor)
        k.supplyInterestFactors := by
  simp only [writeGenesis, SetTotalReserves, SetBorrowedCoins, SetSuppliedCoins]
  rw [foldl_proj SetBorrow Store.supplyInterestFactors (fun _ _ => rfl),
    foldl_proj SetDeposit Store.supplyInterestFactors (fun _ _ => rfl),
    foldl_proj_fold setAccumulationTime Store.supplyInterestFactors
      (fun s gat => KVStore.set s gat.CollateralType gat.SupplyInterestFactor)
      (fun _ _ => rfl),
    foldl_proj (fun k (mm : MoneyMarket) => SetMoneyMarket k mm.Denom mm)
      Store.supplyInterestFactors (fun _ _ => rfl)]
  rfl

theorem writeGenesis_borrowInterestFactors (k : Store) (gs : GenesisState) :
    (writeGenesis k gs).borrowInterestFactors =
      gs.PreviousAccumulationTimes.foldl
        (fun s gat => KVStore.set s gat.CollateralType gat.BorrowInterestFactor)
        k.borrowInterestFactors := by
  simp only [writeGenesis, SetTotalReserves, SetBorrowedCoins, SetSuppliedCoins]
  rw [foldl_proj SetBorrow Store.borrowInterestFactors (fun _ _ => rfl),
    foldl_proj SetDeposit Store.borrowInterestFactors (fun _ _ => rfl),
    foldl_proj_fold setAccumulationTime Store.borrowInterestFactors
      (fun s gat => KVStore.set s gat.CollateralType gat.BorrowInterestFactor)
      (fun _ _ => rfl),
    foldl_proj (fun k (mm : MoneyMarket) => SetMoneyMarket k mm.Denom mm)
      Store.borrowInterestFactors (fun _ _ => rfl)]
  rfl

theorem writeGenesis_previousAccrualTimes (k : Store) (gs : GenesisState) :
    (writeGenesis k gs).previousAccrualTimes =
      gs.PreviousAccumulationTimes.foldl
        (fun s gat => KVStore.set s gat.CollateralType gat.PreviousAccumulationTime)
        k.previousAccrualTimes := by
  simp only [writeGenesis, SetTotalReserves, SetBorrowedCoins, SetSuppliedCoins]
  rw [foldl_proj SetBorrow Store.previousAccrualTimes (fun _ _ => rfl),
    foldl_proj SetDeposit Store.previousAccrualTimes (fun _ _ => rfl),
    foldl_proj_fold setAccumulationTime Store.previousAccrualTimes
      (fun s gat => KVStore.set s gat.CollateralType gat.PreviousAccumulationTime)
      (fun _ _ => rfl),
    foldl_proj (fun k (mm : MoneyMarket) => SetMoneyMarket k mm.Denom mm)
      Store.previousAccrualTimes (fun _ _ => rfl)]
  rfl

theorem writeGenesis_deposits (k : Store) (gs : GenesisState) :
    (writeGenesis k gs).deposits =
      gs.Deposits.foldl (fun s d => KVStore.set s d.key d) k.deposits := by
  simp only [writeGenesis, SetTotalReserves, SetBorrowedCoins, SetSuppliedCoins]
  rw [foldl_proj SetBorrow Store.deposits (fun _ _ => rfl),
    foldl_proj_fold SetDeposit Store.deposits (fun s d => KVStore.set s d.key d)
      (fun _ _ => rfl),
    foldl_proj setAccumulationTime Store.deposits (fun _ _ => rfl),
    foldl_proj (fun k (mm : MoneyMarket) => SetMoneyMarket k mm.Denom mm)
      Store.deposits (fun _ _ => rfl)]
  rfl

theorem writeGenesis_borrows (k : Store) (gs : GenesisState) :
    (writeGenesis k gs).borrows =
      gs.Borrows.foldl (fun s b => KVStore.set s b.Borrower b) k.borrows := by
  simp only [writeGenesis, SetTotalReserves, SetBorrowedCoins, SetSuppliedCoins]
  rw [foldl_proj_fold SetBorrow Store.borrows (fun s b => KVStore.set s b.Borrower b)
      (fun _ _ => rfl),
    foldl_proj SetDeposit Store.borrows (fun _ _ => rfl),
    foldl_proj setAccumulationTime Store.borrows (fun _ _ => rfl),
    foldl_proj (fun k (mm : MoneyMarket) => SetMoneyMarket k mm.Denom mm)
      Store.borrows (fun _ _ => rfl)]
  rfl

theorem writeGenesis_suppliedCoins (k : Store) (gs : GenesisState) :
    (writeGenesis k gs).suppliedCoins = some gs.TotalSupplied := rfl

theorem writeGenesis_borrowedCoins (k : Store) (gs : GenesisState) :
    (writeGenesis k gs).borrowedCoins = some gs.TotalBorrowed := rfl

theorem writeGenesis_totalReserves (k : Store) (gs : GenesisState) :
    (writeGenesis k gs).totalReserves = some gs.TotalReserves := rfl

/-- When validation passes and both module accounts exist, `InitGenesis` ends
without a panic and leaves the store its writes made. -/
theorem InitGenesis_ok (T : Types) (ctx : Context) (k : Store) (supplyKeeper : SupplyKeeper)
    (gs : GenesisState) (hv : T.Validate gs = none)
    (hd : (supplyKeeper.GetModuleAccount T.ModuleAccountName).isSome = true)
    (hl : (supplyKeeper.GetModuleAccount T.LiquidatorAccount).isSome = true) :
    InitGenesis T ctx k supplyKeeper gs = { store := writeGenesis k gs, panicked := none } := by
  obtain ⟨a, ha⟩ := Option.isSome_iff_exists.mp hd
  obtain ⟨b, hb⟩ := Option.isSome_iff_exists.mp hl
  simp [InitGenesis, hv, ha, hb]

/-! ## The genesis boundary: what `ExportGenesis` returns -/

theorem ExportGenesis_gats (T : Types) (ctx : Context) (k : Store) :
    (ExportGenesis T ctx k).PreviousAccumulationTimes =
      (GetParams k).MoneyMarkets.map (exportAccumulationTime ctx k) := by
  simp [ExportGenesis, NewGenesisState, foldl_append_singleton]

theorem ExportGenesis_deposits (T : Types) (ctx : Context) (k : Store) :
    (ExportGenesis T ctx k).Deposits = k.deposits.map Prod.snd := by
  simp [ExportGenesis, NewGenesisState, IterateDeposits, KVStore.iterate_collect]

theorem ExportGenesis_borrows (T : Types) (ctx : Context) (k : Store) :
    (ExportGenesis T ctx k).Borrows = k.borrows.map Prod.snd := by
  simp [ExportGenesis, NewGenesisState, IterateBorrows, KVStore.iterate_collect]

end Hard

/-! ## The genesis boundary: rebuilding the tables -/

namespace Hard

theorem ExportGenesis_params (T : Types) (ctx : Context) (k : Store) :
    (ExportGenesis T ctx k).Params = k.params := rfl

/-- A table that binds exactly the collateral types of the registry is rebuilt
by writing, for each money market, the value the table holds for it. -/
theorem table_rebuilt {V : Type} (params : Params) (table : List (Denom × V))
    (g : MoneyMarket → V) (fallback : Denom → V)
    (hg : ∀ mm ∈ params.MoneyMarkets,
      g mm = (KVStore.get table mm.Denom).getD (fallback mm.Denom))
    (hwf : KVStore.WF table) (hcov : coversRegistry params table) :
    params.MoneyMarkets.foldl (fun t mm => KVStore.set t mm.Denom (g mm)) [] = table := by
  apply KVStore.ext_of_WF
  · exact KVStore.WF_foldl_set _ _ _ _ KVStore.WF_nil
  · exact hwf
  · intro q
    rw [KVStore.get_foldl_set (fun mm : MoneyMarket => mm.Denom) g
      (fun d => (KVStore.get table d).getD (fallback d)) params.MoneyMarkets hg]
    by_cases hq : q ∈ params.MoneyMarkets.map (fun mm => mm.Denom)
    · obtain ⟨v, hv⟩ := Option.isSome_iff_exists.mp (hcov.1 q hq)
      rw [if_pos hq, hv]
      rfl
    · have hk : q ∉ KVStore.keys table := fun hm => hq (hcov.2 q hm)
      rw [if_neg hq, KVStore.get_eq_none_of_not_mem table q hk]
      rfl

/-- Positions filed under their own key, in ascending key order, are rebuilt by
writing them one by one. -/
theorem positions_rebuilt {K V : Type} [LinearOrder K] (key : V → K) (table : List (K × V))
    (hwf : KVStore.WF table) (hkey : ∀ e ∈ table, e.1 = key e.2) :
    (table.map Prod.snd).foldl (fun t v => KVStore.set t (key v) v) [] = table := by
  rw [List.foldl_map]
  have h := KVStore.foldl_set_of_WF table [] (by simpa using hwf)
  rw [List.nil_append] at h
  rw [← List.foldl_ext (fun t (e : K × V) => KVStore.set t e.1 e.2)
    (fun t e => KVStore.set t (key e.2) e.2) [] (fun t e he => by
      show KVStore.set t e.1 e.2 = KVStore.set t (key e.2) e.2
      rw [← hkey e he])]
  exact h

theorem writeGenesis_ExportGenesis (T : Types) (ctx : Context) (s : Store)
    (hwf : s.WellFormed) (hmat : s.Materialized) :
    writeGenesis Store.empty (ExportGenesis T ctx s) = s := by
  obtain ⟨w1, w2, w3, w4, w5, w6, w7⟩ := hwf
  obtain ⟨m1, m2, m3, m4, m5, m6, m7⟩ := hmat
  apply Store.ext
  · rw [writeGenesis_params]; rfl
  · rw [writeGenesis_moneyMarkets, m1]; rfl
  · rw [writeGenesis_supplyInterestFactors, ExportGenesis_gats, List.foldl_map]
    exact table_rebuilt s.params s.supplyInterestFactors _ (fun _ => ZeroDec)
      (fun mm _ => by
        simp only [exportAccumulationTime, NewGenesisAccumulationTime, GetSupplyInterestFactor]
        cases KVStore.get s.supplyInterestFactors mm.Denom <;> rfl) w1 m2
  · rw [writeGenesis_borrowInterestFactors, ExportGenesis_gats, List.foldl_map]
    exact table_rebuilt s.params s.borrowInterestFactors _ (fun _ => ZeroDec)
      (fun mm _ => by
        simp only [exportAccumulationTime, NewGenesisAccumulationTime, GetBorrowInterestFactor]
        cases KVStore.get s.borrowInterestFactors mm.Denom <;> rfl) w2 m3
  · rw [writeGenesis_previousAccrualTimes, ExportGenesis_gats, List.foldl_map]
    exact table_rebuilt s.params s.previousAccrualTimes _ (fun _ => ctx.BlockTime)
      (fun mm _ => by
        simp only [exportAccumulationTime, NewGenesisAccumulationTime, GetPreviousAccrualTime]
        cases KVStore.get s.previousAccrualTimes mm.Denom <;> rfl) w3 m4
  · rw [writeGenesis_deposits, ExportGenesis_deposits]
    exact positions_rebuilt Deposit.key s.deposits w4 w6
  · rw [writeGenesis_borrows, ExportGenesis_borrows]
    exact positions_rebuilt (fun b : Borrow => b.Borrower) s.borrows w5 w7
  · rw [writeGenesis_suppliedCoins]
    obtain ⟨c, hc⟩ := Option.isSome_iff_exists.mp m5
    simp [ExportGenesis, NewGenesisState, GetSuppliedCoins, hc]
  · rw [writeGenesis_borrowedCoins]
    obtain ⟨c, hc⟩ := Option.isSome_iff_exists.mp m6
    simp [ExportGenesis, NewGenesisState, GetBorrowedCoins, hc]
  · rw [writeGenesis_totalReserves]
    obtain ⟨c, hc⟩ := Option.isSome_iff_exists.mp m7
    simp [ExportGenesis, NewGenesisState, GetTotalReserves, hc]

end Hard

/-! ## The genesis boundary: the properties of the specification -/

namespace Hard

/-- C1, at a store whose `bnb` money market was never accrued: the record that
`ExportGenesis` emits for `bnb` carries the current block time, but its supply
and borrow interest factors are `ZeroDec`, which is not the identity factor
`OneDec`; and the exported state fails a validation that demands factors of at
least 1. -/
theorem ExportGenesis_never_accrued_zero_factors :
    GetSupplyInterestFactor neverAccrued "bnb" = none ∧
    GetBorrowInterestFactor neverAccrued "bnb" = none ∧
    GetPreviousAccrualTime neverAccrued "bnb" = none ∧
    (ExportGenesis exampleTypes ⟨100⟩ neverAccrued).PreviousAccumulationTimes =
      [{ CollateralType := "bnb", PreviousAccumulationTime := 100,
         SupplyInterestFactor := ZeroDec, BorrowInterestFactor := ZeroDec }] ∧
    ZeroDec ≠ OneDec ∧
    validateFactors (ExportGenesis exampleTypes ⟨100⟩ neverAccrued) ≠ none := by
  decide

/-- C2 as stated fails: the store `noAccrualTime` (factors stored, no previous
accrual time) exports a state that passes validation, both module accounts
exist, the import ends without a panic, and the store it leaves holds a
previous accrual time for `bnb` where the original holds none. -/
theorem round_trip_materializes_accrual_time :
    noAccrualTime.WellFormed ∧
    exampleTypes.Validate (ExportGenesis exampleTypes ⟨100⟩ noAccrualTime) = none ∧
    (bothAccounts.GetModuleAccount exampleTypes.ModuleAccountName).isSome = true ∧
    (bothAccounts.GetModuleAccount exampleTypes.LiquidatorAccount).isSome = true ∧
    (InitGenesis exampleTypes ⟨100⟩ Store.empty bothAccounts
      (ExportGenesis exampleTypes ⟨100⟩ noAccrualTime)).panicked = none ∧
    GetPreviousAccrualTime noAccrualTime "bnb" = none ∧
    GetPreviousAccrualTime (InitGenesis exampleTypes ⟨100⟩ Store.empty bothAccounts
      (ExportGenesis exampleTypes ⟨100⟩ noAccrualTime)).store "bnb" = some 100 ∧
    (InitGenesis exampleTypes ⟨100⟩ Store.empty bothAccounts
      (ExportGenesis exampleTypes ⟨100⟩ noAccrualTime)).store ≠ noAccrualTime := by
  decide

/-- C2, amended: for every well-formed store state whose lazily initialized
entries are all present (the money-market store is the registry of the
parameters, factors and accrual time are stored for exactly the collateral
types of the registry, the three totals are stored), if the exported snapshot
passes validation and both module accounts exist, then `InitGenesis` on
`ExportGenesis` of the state, against the empty store, ends without a panic and
leaves a store equal to that state. -/
theorem round_trip_of_materialized (T : Types) (ctx : Context) (supplyKeeper : SupplyKeeper)
    (s : Store) (hwf : s.WellFormed) (hmat : s.Materialized)
    (hv : T.Validate (ExportGenesis T ctx s) = none)
    (hd : (supplyKeeper.GetModuleAccount T.ModuleAccountName).isSome = true)
    (hl : (supplyKeeper.GetModuleAccount T.LiquidatorAccount).isSome = true) :
    InitGenesis T ctx Store.empty supplyKeeper (ExportGenesis T ctx s) =
      { store := s, panicked := none } := by
  rw [InitGenesis_ok T ctx Store.empty supplyKeeper _ hv hd hl,
    writeGenesis_ExportGenesis T ctx s hwf hmat]

/-- The amended round trip at the store `accrued`: a money market with stored
factors and accrual time, one deposit, one borrow and the three totals. -/
theorem round_trip_of_materialized_witness :
    accrued.WellFormed ∧ accrued.Materialized ∧
    InitGenesis exampleTypes ⟨100⟩ Store.empty bothAccounts
        (ExportGenesis exampleTypes ⟨100⟩ accrued) =
      { store := accrued, panicked := none } :=
  ⟨by decide, by decide,
    round_trip_of_materialized exampleTypes ⟨100⟩ bothAccounts accrued
      (by decide) (by decide) (by decide) (by decide) (by decide)⟩

/-- C3: when `gs.Validate()` returns an error, `InitGenesis` panics and leaves
the store exactly as it was before the call. -/
theorem InitGenesis_validates_before_writing (T : Types) (ctx : Context) (k : Store)
    (supplyKeeper : SupplyKeeper) (gs : GenesisState) (h : T.Validate gs ≠ none) :
    (InitGenesis T ctx k supplyKeeper gs).panicked ≠ none ∧
    (InitGenesis T ctx k supplyKeeper gs).store = k := by
  cases hv : T.Validate gs with
  | none => exact absurd hv h
  | some err => simp [InitGenesis, hv]

/-- C3 at a genesis state with a supply interest factor below 1, imported over
the non-empty store `accrued`. -/
theorem InitGenesis_validates_before_writing_witness :
    exampleTypes.Validate badGenesis ≠ none ∧
    (InitGenesis exampleTypes ⟨100⟩ accrued bothAccounts badGenesis).panicked ≠ none ∧
    (InitGenesis exampleTypes ⟨100⟩ accrued bothAccounts badGenesis).store = accrued :=
  ⟨by decide,
    InitGenesis_validates_before_writing exampleTypes ⟨100⟩ accrued bothAccounts badGenesis
      (by decide)⟩

/-- C4: `InitGenesis` ends without a panic if and only if `gs.Validate()`
succeeds and both the deposit-custody module account and the liquidator module
account exist. -/
theorem InitGenesis_completes_iff (T : Types) (ctx : Context) (k : Store)
    (supplyKeeper : SupplyKeeper) (gs : GenesisState) :
    (InitGenesis T ctx k supplyKeeper gs).panicked = none ↔
      (T.Validate gs = none ∧
        (supplyKeeper.GetModuleAccount T.ModuleAccountName).isSome = true ∧
        (supplyKeeper.GetModuleAccount T.LiquidatorAccount).isSome = true) := by
  unfold InitGenesis
  cases hv : T.Validate gs with
  | some err => simp
  | none =>
    cases hd : supplyKeeper.GetModuleAccount T.ModuleAccountName with
    | none => simp
    | some a =>
      cases hl : supplyKeeper.GetModuleAccount T.LiquidatorAccount with
      | none => simp
      | some b => simp

/-- C5: each of the three aggregate totals returned by `ExportGenesis` is the
value stored in the keeper when one is stored and the corresponding default
otherwise, each decided on its own. -/
theorem ExportGenesis_totals (T : Types) (ctx : Context) (k : Store) :
    (ExportGenesis T ctx k).TotalSupplied =
      (GetSuppliedCoins k).getD T.DefaultTotalSupplied ∧
    (ExportGenesis T ctx k).TotalBorrowed =
      (GetBorrowedCoins k).getD T.DefaultTotalBorrowed ∧
    (ExportGenesis T ctx k).TotalReserves =
      (GetTotalReserves k).getD T.DefaultTotalReserves := by
  refine ⟨?_, ?_, ?_⟩
  · simp only [ExportGenesis, NewGenesisState]
    cases GetSuppliedCoins k <;> rfl
  · simp only [ExportGenesis, NewGenesisState]
    cases GetBorrowedCoins k <;> rfl
  · simp only [ExportGenesis, NewGenesisState]
    cases GetTotalReserves k <;> rfl

/-- C6: the `PreviousAccumulationTimes` returned by `ExportGenesis` has one
record per money market of the current params, in the params' order; the i-th
record has the i-th money market's denom as collateral type, and carries the
stored supply factor, borrow factor and previous accrual time whenever one is
stored for that denom. -/
theorem ExportGenesis_accumulation_times (T : Types) (ctx : Context) (k : Store) :
    (ExportGenesis T ctx k).PreviousAccumulationTimes.length =
      (GetParams k).MoneyMarkets.length ∧
    ∀ (i : Nat) (mm : MoneyMarket), (GetParams k).MoneyMarkets[i]? = some mm →
      ∃ gat, (ExportGenesis T ctx k).PreviousAccumulationTimes[i]? = some gat ∧
        gat.CollateralType = mm.Denom ∧
        (∀ f, GetSupplyInterestFactor k mm.Denom = some f → gat.SupplyInterestFactor = f) ∧
        (∀ f, GetBorrowInterestFactor k mm.Denom = some f → gat.BorrowInterestFactor = f) ∧
        (∀ t, GetPreviousAccrualTime k mm.Denom = some t →
          gat.PreviousAccumulationTime = t) := by
  rw [ExportGenesis_gats]
  refine ⟨by simp, ?_⟩
  intro i mm hi
  refine ⟨exportAccumulationTime ctx k mm, by simp [hi], rfl, ?_, ?_, ?_⟩
  · intro f hf
    simp [exportAccumulationTime, NewGenesisAccumulationTime, hf]
  · intro f hf
    simp [exportAccumulationTime, NewGenesisAccumulationTime, hf]
  · intro t ht
    simp [exportAccumulationTime, NewGenesisAccumulationTime, ht]

/-- C6 at the store `accrued` and its first money market. -/
theorem ExportGenesis_accumulation_times_witness :
    (GetParams accrued).MoneyMarkets[0]? = some bnbMarket ∧
    ∃ gat, (ExportGenesis exampleTypes ⟨100⟩ accrued).PreviousAccumulationTimes[0]? = some gat ∧
      gat.CollateralType = bnbMarket.Denom ∧
      (∀ f, GetSupplyInterestFactor accrued bnbMarket.Denom = some f →
        gat.SupplyInterestFactor = f) ∧
      (∀ f, GetBorrowInterestFactor accrued bnbMarket.Denom = some f →
        gat.BorrowInterestFactor = f) ∧
      (∀ t, GetPreviousAccrualTime accrued bnbMarket.Denom = some t →
        gat.PreviousAccumulationTime = t) :=
  ⟨rfl, (ExportGenesis_accumulation_times exampleTypes ⟨100⟩ accrued).2 0 bnbMarket rfl⟩

/-- C10: for a genesis state that passes validation, with both module accounts
existing, `InitGenesis` on the empty store ends without a panic and
`ExportGenesis` right after it returns the params and the three aggregate
totals of the genesis state; no default is substituted. -/
theorem ExportGenesis_after_InitGenesis (T : Types) (ctx : Context)
    (supplyKeeper : SupplyKeeper) (gs : GenesisState) (hv : T.Validate gs = none)
    (hd : (supplyKeeper.GetModuleAccount T.ModuleAccountName).isSome = true)
    (hl : (supplyKeeper.GetModuleAccount T.LiquidatorAccount).isSome = true) :
    (InitGenesis T ctx Store.empty supplyKeeper gs).panicked = none ∧
    (ExportGenesis T ctx (InitGenesis T ctx Store.empty supplyKeeper gs).store).Params =
      gs.Params ∧
    (ExportGenesis T ctx (InitGenesis T ctx Store.empty supplyKeeper gs).store).TotalSupplied =
      gs.TotalSupplied ∧
    (ExportGenesis T ctx (InitGenesis T ctx Store.empty supplyKeeper gs).store).TotalBorrowed =
      gs.TotalBorrowed ∧
    (ExportGenesis T ctx (InitGenesis T ctx Store.empty supplyKeeper gs).store).TotalReserves =
      gs.TotalReserves := by
  rw [InitGenesis_ok T ctx Store.empty supplyKeeper gs hv hd hl]
  refine ⟨rfl, ?_, ?_, ?_, ?_⟩
  · rw [ExportGenesis_params, writeGenesis_params]
  · simp [ExportGenesis, NewGenesisState, GetSuppliedCoins, writeGenesis_suppliedCoins]
  · simp [ExportGenesis, NewGenesisState, GetBorrowedCoins, writeGenesis_borrowedCoins]
  · simp [ExportGenesis, NewGenesisState, GetTotalReserves, writeGenesis_totalReserves]

/-- C10 at the genesis state `goodGenesis`. -/
theorem ExportGenesis_after_InitGenesis_witness :
    exampleTypes.Validate goodGenesis = none ∧
    (ExportGenesis exampleTypes ⟨100⟩
      (InitGenesis exampleTypes ⟨100⟩ Store.empty bothAccounts goodGenesis).store).Params =
      goodGenesis.Params ∧
    (ExportGenesis exampleTypes ⟨100⟩
      (InitGenesis exampleTypes ⟨100⟩ Store.empty bothAccounts goodGenesis).store).TotalReserves =
      [⟨"bnb", 7⟩] :=
  ⟨by decide,
    (ExportGenesis_after_InitGenesis exampleTypes ⟨100⟩ bothAccounts goodGenesis
      (by decide) (by decide) (by decide)).2.1,
    (ExportGenesis_after_InitGenesis exampleTypes ⟨100⟩ bothAccounts goodGenesis
      (by decide) (by decide) (by decide)).2.2.2.2⟩

end Hard

/-! ## The rewards query: the properties of the specification -/

namespace Incentive

/-- The reward type of the query parameters is read from the owner flag. -/
theorem prepareParams_rewardType (c : Client) (viper : Viper) (params : QueryRewardsParams)
    (h : prepareParams c viper = .ok params) :
    params.RewardType = viper.GetString flagOwner := by
  unfold prepareParams at h
  cases ho : c.AccAddressFromBech32 (viper.GetString flagOwner) with
  | error err => simp [ho] at h
  | ok owner =>
    simp only [ho, Except.ok.injEq] at h
    rw [← h]
    rfl

/-- C7, at the invocations `rewards --type hard` and
`rewards --type hard --owner kava15q...`: the value of the type flag is `hard`,
but the query parameters that `queryRewardsCmd` builds and marshals carry as
reward type the value of the owner flag, the empty string in the first case and
the owner string in the second. -/
theorem queryRewardsCmd_type_flag_unread :
    (flagValues "" "hard").GetString flagType = "hard" ∧
    prepareParams exampleClient (flagValues "" "hard") =
      .ok { Page := 1, Limit := 100, Owner := [], RewardType := "" } ∧
    (queryRewardsCmd "incentive" exampleClient (flagValues "" "hard")).calls.head? =
      some (.marshalJSON { Page := 1, Limit := 100, Owner := [], RewardType := "" }) ∧
    (flagValues sampleOwner "hard").GetString flagType = "hard" ∧
    prepareParams exampleClient (flagValues sampleOwner "hard") =
      .ok { Page := 1, Limit := 100, Owner := sampleOwnerAddress, RewardType := sampleOwner } ∧
    sampleOwner ≠ "hard" ∧ "" ≠ "hard" := by
  refine ⟨rfl, rfl, rfl, rfl, rfl, by decide, by decide⟩

/-- C8: when the owner flag does not parse as an account address, the rewards
query command returns the parsing error and calls none of its collaborators
(nothing is marshalled, nothing is queried); when it parses, the parsed address
is the owner of the query parameters, which are what the command marshals. -/
theorem queryRewardsCmd_owner (queryRoute : String) (c : Client) (viper : Viper) :
    (∀ err, c.AccAddressFromBech32 (viper.GetString flagOwner) = .error err →
      queryRewardsCmd queryRoute c viper = { calls := [], err := some err }) ∧
    (∀ owner, c.AccAddressFromBech32 (viper.GetString flagOwner) = .ok owner →
      ∃ params, prepareParams c viper = .ok params ∧ params.Owner = owner ∧
        (queryRewardsCmd queryRoute c viper).calls.head? = some (.marshalJSON params)) := by
  constructor
  · intro err h
    simp [queryRewardsCmd, prepareParams, h]
  · intro owner h
    refine ⟨NewQueryRewardsParams (viper.GetInt FlagPage) (viper.GetInt FlagLimit) owner
      (viper.GetString flagOwner), by simp [prepareParams, h], rfl, ?_⟩
    simp only [queryRewardsCmd, prepareParams, h]
    cases c.MarshalJSON (NewQueryRewardsParams (viper.GetInt FlagPage) (viper.GetInt FlagLimit)
      owner (viper.GetString flagOwner)) with
    | error e => rfl
    | ok bz =>
      simp only
      cases c.QueryWithData ("custom/" ++ queryRoute ++ "/" ++ c.QueryGetRewards) bz with
      | error e => rfl
      | ok r =>
        obtain ⟨res, height⟩ := r
        simp only
        cases c.UnmarshalJSON res with
        | error e => rfl
        | ok claims => rfl

/-- C8 at an owner that is no address and at the sample owner. -/
theorem queryRewardsCmd_owner_witness :
    queryRewardsCmd "incentive" exampleClient (flagValues "kava1notanaddress" "hard") =
      { calls := [], err := some "decoding bech32 failed" } ∧
    ∃ params, prepareParams exampleClient (flagValues sampleOwner "hard") = .ok params ∧
      params.Owner = sampleOwnerAddress ∧
      (queryRewardsCmd "incentive" exampleClient (flagValues sampleOwner "hard")).calls.head? =
        some (.marshalJSON params) :=
  ⟨(queryRewardsCmd_owner "incentive" exampleClient (flagValues "kava1notanaddress" "hard")).1
      "decoding bech32 failed" rfl,
    (queryRewardsCmd_owner "incentive" exampleClient (flagValues sampleOwner "hard")).2
      sampleOwnerAddress rfl⟩

end Incentive

/-! ## The deposit store: the properties of the specification -/

namespace Harvest

/-- C9: after `SetDeposit` of `NewDeposit owner coin`, `GetDeposit` of the owner
and the coin's denom finds that deposit; after a following `DeleteDeposit` it
finds none; and on a store with no record under the owner and denom it finds
none. -/
theorem deposit_set_get_delete (k : Store) (owner : AccAddress) (coin : Coin) :
    GetDeposit (SetDeposit k (NewDeposit owner coin)) owner coin.Denom =
      some (NewDeposit owner coin) ∧
    GetDeposit (DeleteDeposit (SetDeposit k (NewDeposit owner coin)) (NewDeposit owner coin))
      owner coin.Denom = none ∧
    (toLex (owner, coin.Denom) ∉ KVStore.keys k.deposits →
      GetDeposit k owner coin.Denom = none) := by
  refine ⟨?_, ?_, ?_⟩
  · simp [GetDeposit, SetDeposit, NewDeposit, KVStore.get_set_self]
  · simp [GetDeposit, DeleteDeposit, SetDeposit, NewDeposit, KVStore.get_delete_self]
  · intro h
    exact KVStore.get_eq_none_of_not_mem _ _ h

/-- C9 at the deposit of the keeper test, on the empty store. -/
theorem deposit_set_get_delete_witness :
    GetDeposit (SetDeposit Store.empty testDeposit) [116, 101, 115, 116] "bnb" =
      some testDeposit ∧
    GetDeposit (DeleteDeposit (SetDeposit Store.empty testDeposit) testDeposit)
      [116, 101, 115, 116] "bnb" = none ∧
    GetDeposit Store.empty [116, 101, 115, 116] "bnb" = none :=
  ⟨(deposit_set_get_delete Store.empty [116, 101, 115, 116] ⟨"bnb", 100⟩).1,
    (deposit_set_get_delete Store.empty [116, 101, 115, 116] ⟨"bnb", 100⟩).2.1,
    (deposit_set_get_delete Store.empty [116, 101, 115, 116] ⟨"bnb", 100⟩).2.2
      (by simp [Store.empty, KVStore.keys])⟩

end Harvest

end Kava
